import Mathlib

/-!
Shallow embedding of the ReguFlash flashcard application.

The study-session engine lives in the App component (src/unnamed/part_002):
a React component holding `cards`, `currentIndex`, `isFlipped`, `filterMode`
and `selectedTag` state, a derived `displayCards` view, and the handlers
`handleNext`, `handlePrev`, `handleMark`, `handleDeleteCard`, `handleShuffle`,
`handleSaveData`, `handleAppendData`, `handleReset`.  Persistence is
`src/utils/storage.ts` (localStorage behind `saveCards`/`loadCards`/`resetData`);
bulk import validation is `parseAndValidate` in `src/components/Editor.tsx`.

Embedding conventions:
* The persisted localStorage entry is a field `store : Option (List Card)` of
  the state (`none` models a removed/absent key).
* React's functional state updates inside a handler are flattened into one
  state-to-state function.  A handler closes over the values of the render in
  which it was created, so inside `handleMark`/`handleDeleteCard` the
  occurrences of `displayCards`/`effectiveIndex` denote the *pre-mutation*
  values; the embedding computes them from the input state, exactly as the
  closures do.  The 200 ms `setTimeout` before the index update in
  `handleNext`/`handlePrev` is a presentation delay (spec section 5) and the
  two phases are fused.
* `handleDeleteCard` is modelled on the confirm-accepted path
  (`window.confirm` returning true); the cancelled path is the identity.
* JS `(base - 1 + len) % len` on the in-range `base < len` is written
  `(base + len - 1) % len` so Nat subtraction cannot truncate.
* The random reordering produced by `([...cards]).sort(() => Math.random() - 0.5)`
  is passed to `handleShuffle` as an explicit reordering function parameter.
* The per-call `generateId()` of the Editor is determinized as a function
  `gen : Nat → String` from the position of the card inside the import.
-/

namespace Flashcard

/-- The three-state mastery tag, src/unnamed/part_002 `type Proficiency`. -/
inductive Proficiency where
  | new
  | known
  | unknown
deriving DecidableEq, Repr

/-- A flashcard, src/unnamed/part_002 `interface Card`.  Optional fields are
`Option`; an absent field is `none`. -/
structure Card where
  id : String
  category : String
  question : String
  answer : String
  details : Option (List String)
  tags : Option (List String)
  proficiency : Option Proficiency
deriving DecidableEq, Repr

/-- The proficiency filter selector of the App component
(`filterMode : 'all' | 'new' | 'unknown' | 'known'`). -/
inductive FilterMode where
  | all
  | new
  | unknown
  | known
deriving DecidableEq, Repr

/-- The App component state.  `selectedTag = ""` is the no-tag-filter
sentinel, as in the source (`useState<string>('')` and `if (selectedTag)`).
`store` is the persisted localStorage snapshot (`none` = key absent). -/
structure AppState where
  cards : List Card
  currentIndex : Nat
  isFlipped : Bool
  filterMode : FilterMode
  selectedTag : String
  store : Option (List Card)
deriving DecidableEq, Repr

/-- The derived visible list, src/unnamed/part_002 `displayCards`:
a proficiency-filter pass followed by a tag-filter pass. -/
def displayCards (cards : List Card) (filterMode : FilterMode)
    (selectedTag : String) : List Card :=
  let step1 :=
    match filterMode with
    | FilterMode.new =>
        cards.filter fun c =>
          c.proficiency == none || c.proficiency == some Proficiency.new
    | FilterMode.all => cards
    | FilterMode.known =>
        cards.filter fun c => c.proficiency == some Proficiency.known
    | FilterMode.unknown =>
        cards.filter fun c => c.proficiency == some Proficiency.unknown
  if selectedTag == "" then step1
  else step1.filter fun c => (c.tags.getD []).contains selectedTag

/-- The visible list of a state. -/
def visibleOf (s : AppState) : List Card :=
  displayCards s.cards s.filterMode s.selectedTag

/-- src/unnamed/part_002: `effectiveIndex = Math.min(currentIndex, Math.max(0,
displayCards.length - 1))`.  On Nat, `max 0 (len - 1)` is `len - 1` with the
same value as the JS expression (both are 0 at `len = 0`). -/
def effectiveIndex (currentIndex len : Nat) : Nat :=
  min currentIndex (max 0 (len - 1))

/-- src/unnamed/part_002: `currentCard = displayCards[effectiveIndex]`
(`none` when the visible list is empty). -/
def currentCard (s : AppState) : Option Card :=
  (visibleOf s)[effectiveIndex s.currentIndex (visibleOf s).length]?

/-- src/utils/storage.ts `saveCards`: overwrite the persisted snapshot. -/
def saveCards (cards : List Card) : Option (List Card) :=
  some cards

/-- Modelled from the spec: the built-in seed collection `INITIAL_DATA` is
imported from `src/constants`, a file that is not part of the provided
sources; the spec (sections 4.1 and 8 and claim C9) only requires it to be a
non-empty built-in card collection, so it is modelled as a fixed non-empty
list. -/
def INITIAL_DATA : List Card :=
  [⟨"seed-1", "General", "Seed question", "Seed answer", none, none, none⟩]

/-- src/utils/storage.ts `loadCards`: the stored snapshot if present,
otherwise the seed data. -/
def loadCards (store : Option (List Card)) : List Card :=
  store.getD INITIAL_DATA

/-- src/utils/storage.ts `resetData`: remove the persisted entry and return
the seed data.  Result: (new store contents, returned collection). -/
def resetData (_store : Option (List Card)) : Option (List Card) × List Card :=
  (none, INITIAL_DATA)

/-- src/unnamed/part_002 `handleNext`, with the visible length it closed over
passed explicitly (the memoized callback captures `displayCards.length` of the
render that created it). -/
def handleNextWithLen (len : Nat) (s : AppState) : AppState :=
  if len == 0 then s
  else
    let base := if s.currentIndex ≥ len then 0 else s.currentIndex
    { s with isFlipped := false, currentIndex := (base + 1) % len }

/-- src/unnamed/part_002 `handleNext` on the current state. -/
def handleNext (s : AppState) : AppState :=
  handleNextWithLen (visibleOf s).length s

/-- src/unnamed/part_002 `handlePrev` with explicit captured length;
`(base + len - 1) % len` is JS `(base - 1 + len) % len`. -/
def handlePrevWithLen (len : Nat) (s : AppState) : AppState :=
  if len == 0 then s
  else
    let base := if s.currentIndex ≥ len then 0 else s.currentIndex
    { s with isFlipped := false, currentIndex := (base + len - 1) % len }

/-- src/unnamed/part_002 `handlePrev` on the current state. -/
def handlePrev (s : AppState) : AppState :=
  handlePrevWithLen (visibleOf s).length s

/-- `{ ...c, proficiency }` in `handleMark`. -/
def markedCard (p : Proficiency) (c : Card) : Card :=
  { c with proficiency := some p }

/-- `filterMode === proficiency` of `handleMark`: the string comparison of a
filter-mode literal against a proficiency literal. -/
def filterMatchesProf : FilterMode → Proficiency → Bool
  | FilterMode.new, Proficiency.new => true
  | FilterMode.known, Proficiency.known => true
  | FilterMode.unknown, Proficiency.unknown => true
  | _, _ => false

/-- src/unnamed/part_002 `handleMark`. -/
def handleMark (p : Proficiency) (s : AppState) : AppState :=
  match currentCard s with
  | none => s
  | some cc =>
      let updatedCards :=
        s.cards.map fun c => if c.id == cc.id then markedCard p c else c
      let s1 := { s with cards := updatedCards, store := saveCards updatedCards }
      let matchesProficiency :=
        s.filterMode == FilterMode.all || filterMatchesProf s.filterMode p
      let matchesTag :=
        s.selectedTag == "" || (cc.tags.getD []).contains s.selectedTag
      if matchesProficiency && matchesTag then
        handleNextWithLen (visibleOf s).length s1
      else
        let oldLen := (visibleOf s).length
        let e := effectiveIndex s.currentIndex oldLen
        let s2 :=
          if 0 < oldLen ∧ oldLen - 1 ≤ e then
            { s1 with currentIndex := oldLen - 2 }
          else s1
        { s2 with isFlipped := false }

/-- src/unnamed/part_002 `handleDeleteCard` (confirm-accepted path). -/
def handleDeleteCard (s : AppState) : AppState :=
  match currentCard s with
  | none => s
  | some cc =>
      let newCards := s.cards.filter fun c => c.id != cc.id
      let s1 := { s with cards := newCards, store := saveCards newCards }
      let oldLen := (visibleOf s).length
      let e := effectiveIndex s.currentIndex oldLen
      let s2 :=
        if oldLen - 1 ≤ e then { s1 with currentIndex := oldLen - 2 } else s1
      { s2 with isFlipped := false }

/-- src/unnamed/part_002 `handleShuffle`; the realized reordering of
`[...cards].sort(() => Math.random() - 0.5)` is the parameter `f`.
No `saveCards` call occurs here. -/
def handleShuffle (f : List Card → List Card) (s : AppState) : AppState :=
  { s with isFlipped := false, cards := f s.cards, currentIndex := 0 }

/-- Changing the proficiency filter; the `useEffect` on
`[filterMode, selectedTag]` resets the index to 0 and unflips. -/
def setFilterMode (fm : FilterMode) (s : AppState) : AppState :=
  { s with filterMode := fm, currentIndex := 0, isFlipped := false }

/-- Changing the tag filter; same `useEffect` reset. -/
def setSelectedTag (t : String) (s : AppState) : AppState :=
  { s with selectedTag := t, currentIndex := 0, isFlipped := false }

/-- src/unnamed/part_002 `handleSaveData` (replace-all path from the Editor);
the `setMode('study')` call is presentation-only and not part of the state. -/
def handleSaveData (newCards : List Card) (s : AppState) : AppState :=
  { s with cards := newCards, store := saveCards newCards,
           currentIndex := 0, isFlipped := false, filterMode := FilterMode.all }

/-- src/unnamed/part_002 `handleAppendData`. -/
def handleAppendData (newCards : List Card) (s : AppState) : AppState :=
  { s with cards := s.cards ++ newCards, store := saveCards (s.cards ++ newCards) }

/-- src/unnamed/part_002 `handleReset` (confirm-accepted path). -/
def handleReset (s : AppState) : AppState :=
  let r := resetData s.store
  { s with store := r.1, cards := r.2, currentIndex := 0, isFlipped := false,
           filterMode := FilterMode.all, selectedTag := "" }

/-- A raw object of the bulk-import array, before normalization
(src/components/Editor.tsx).  `question`/`answer` use `""` for both the
missing and the empty field: the JS truthiness test `item.question &&
item.answer` does not distinguish them.  A `tags` value that is not an array
is already `none` at this type (`Array.isArray` guard). -/
structure RawCard where
  id : Option String
  category : String
  question : String
  answer : String
  details : Option (List String)
  tags : Option (List String)
  proficiency : Option Proficiency
deriving DecidableEq, Repr

/-- A parsed import payload: either not an array, or an array of raw cards. -/
inductive ImportData where
  | notArray
  | arr (items : List RawCard)
deriving DecidableEq, Repr

/-- The per-item validity test `item.question && item.answer`. -/
def rawHasQA (it : RawCard) : Bool :=
  !it.question.isEmpty && !it.answer.isEmpty

/-- `item.id || generateId()`: keep a truthy (non-empty) explicit id,
otherwise draw a generated one for position `i`. -/
def chosenId (gen : Nat → String) (i : Nat) (item : RawCard) : String :=
  match item.id with
  | some sid => if sid == "" then gen i else sid
  | none => gen i

/-- The normalization of one import item in `parseAndValidate`:
`{...item, id: item.id || generateId(), proficiency: item.proficiency || 'new',
tags: Array.isArray(item.tags) ? item.tags : undefined}`. -/
def normalizeItem (gen : Nat → String) (i : Nat) (item : RawCard) : Card :=
  { id := chosenId gen i item
    category := item.category
    question := item.question
    answer := item.answer
    details := item.details
    tags := item.tags
    proficiency := some (item.proficiency.getD Proficiency.new) }

/-- The normalization map over the import array, threading the position used
for generated ids. -/
def normalizeFrom (gen : Nat → String) (i : Nat) : List RawCard → List Card
  | [] => []
  | item :: rest => normalizeItem gen i item :: normalizeFrom gen (i + 1) rest

/-- src/components/Editor.tsx `parseAndValidate`, starting from the parsed
JSON value. -/
def parseAndValidate (gen : Nat → String) : ImportData → Except String (List Card)
  | ImportData.notArray => Except.error "Data must be an array"
  | ImportData.arr items =>
      if items.all rawHasQA then Except.ok (normalizeFrom gen 0 items)
      else Except.error "Each card must have a question and answer."

/-- src/components/Editor.tsx `handleSave`: validate, then either apply the
replace-all (`onSave` = `handleSaveData`) or surface the error message and
leave the state untouched. -/
def editorHandleSave (gen : Nat → String) (d : ImportData) (s : AppState) :
    AppState × Option String :=
  match parseAndValidate gen d with
  | Except.ok data => (handleSaveData data s, none)
  | Except.error m => (s, some m)

/-- src/components/Editor.tsx `handleAppendSubmit`: validate, then either
append (`onAppend` = `handleAppendData`) or surface the error message. -/
def editorHandleAppend (gen : Nat → String) (d : ImportData) (s : AppState) :
    AppState × Option String :=
  match parseAndValidate gen d with
  | Except.ok data => (handleAppendData data s, none)
  | Except.error m => (s, some m)

/-- The study-session operations of claim C1. -/
inductive Op where
  | next
  | prev
  | setFilter (fm : FilterMode)
  | setTag (t : String)
  | mark (p : Proficiency)
  | deleteCurrent
  | shuffle (f : List Card → List Card)

/-- One operation applied to the state. -/
def step : Op → AppState → AppState
  | Op.next, s => handleNext s
  | Op.prev, s => handlePrev s
  | Op.setFilter fm, s => setFilterMode fm s
  | Op.setTag t, s => setSelectedTag t s
  | Op.mark p, s => handleMark p s
  | Op.deleteCurrent, s => handleDeleteCard s
  | Op.shuffle f, s => handleShuffle f s

/-- A finite sequence of operations applied in order. -/
def run (ops : List Op) (s : AppState) : AppState :=
  ops.foldl (fun s op => step op s) s

/-! Spec-side definitions, used to compare the code against the spec's
wording (refinement comparisons). -/

/-- The spec's proficiency stage (section 4.3): `new` keeps absent-or-new,
`known`/`unknown` keep exact matches, `all` keeps everything. -/
def profKeepSpec : FilterMode → Card → Bool
  | FilterMode.new, c =>
      c.proficiency == none || c.proficiency == some Proficiency.new
  | FilterMode.all, _ => true
  | FilterMode.known, c => c.proficiency == some Proficiency.known
  | FilterMode.unknown, c => c.proficiency == some Proficiency.unknown

/-- The spec's tag stage (section 4.3): when a tag filter is set, keep only
cards whose tags contain it; tagless cards are excluded. -/
def tagKeepSpec (selectedTag : String) (c : Card) : Bool :=
  selectedTag == "" || (c.tags.getD []).contains selectedTag

/-- Conjunction of the two spec filter stages: the card is in the visible
set. -/
def cardMatchesFilters (fm : FilterMode) (tag : String) (c : Card) : Bool :=
  profKeepSpec fm c && tagKeepSpec tag c

/-- Modelled from the spec: the `onVisibleSequenceShrink` cursor policy as
claim C2 and spec section 4.4 word it — if the effective position `e` is at
or beyond the NEW last valid index, decrement the position by 1 (floored
at 0), else leave it unchanged.  `newLen` is the length of the visible
sequence after the shrink. -/
def shrinkIndexSpec (e newLen : Nat) : Nat :=
  if newLen - 1 ≤ e then e - 1 else e

/-- The explicit non-empty ids supplied by an import, in order: the ids the
normalization keeps instead of generating fresh ones. -/
def explicitIds : List RawCard → List String
  | [] => []
  | it :: rest =>
      match it.id with
      | some sid =>
          if sid == "" then explicitIds rest else sid :: explicitIds rest
      | none => explicitIds rest

/-! Concrete instances used in scenarios, counterexamples and witnesses. -/

/-- Card A of the spec's mark scenario (proficiency `new`). -/
def cardA : Card :=
  ⟨"A", "cat", "question A", "answer A", none, none, some Proficiency.new⟩

/-- Card B of the spec's mark scenario (proficiency `new`). -/
def cardB : Card :=
  ⟨"B", "cat", "question B", "answer B", none, none, some Proficiency.new⟩

/-- Card C of the spec's mark scenario (proficiency `new`). -/
def cardC : Card :=
  ⟨"C", "cat", "question C", "answer C", none, none, some Proficiency.new⟩

/-- Collection [A, B, C], filter `all`, no tag filter, cursor at A: the
state of the spec's mark scenario (claim C3). -/
def scenarioState : AppState :=
  ⟨[cardA, cardB, cardC], 0, false, FilterMode.all, "", none⟩

/-- Collection [A, B, C] all `new`, filter `new`, cursor at B (index 1):
the state on which the claimed shrink boundary is tested (claim C2). -/
def midMarkState : AppState :=
  ⟨[cardA, cardB, cardC], 1, false, FilterMode.new, "", none⟩

/-- Two visible cards with a stale raw index 5 (e.g. after the current card
was edited out of an active tag filter): the state exposing the `next()`
base computation (claim C4). -/
def staleState : AppState :=
  ⟨[cardA, cardB], 5, false, FilterMode.all, "", none⟩

/-- A concrete operation sequence exercising every study operation once. -/
def c1Ops : List Op :=
  [Op.next, Op.mark Proficiency.known, Op.setFilter FilterMode.new, Op.prev,
   Op.deleteCurrent, Op.shuffle List.reverse, Op.setTag "t", Op.next]

/-- A concrete id generator for counterexample runs. -/
def genDefault : Nat → String := fun i => "gen-" ++ toString i

/-- Import item with an explicit id "x" and an EMPTY tags array. -/
def rawDup1 : RawCard := ⟨some "x", "cat", "q1", "a1", none, some [], none⟩

/-- Import item with the same explicit id "x" and no tags field. -/
def rawDup2 : RawCard := ⟨some "x", "cat", "q2", "a2", none, none, none⟩

/-- An injective id generator with provably non-empty outputs, used to
discharge freshness hypotheses at a concrete input. -/
def witnessGen : Nat → String := fun i => String.mk (List.replicate (i + 1) 'g')

/-- Two valid import items with no explicit ids. -/
def witnessItems : List RawCard :=
  [⟨none, "cat", "q1", "a1", none, some ["t1"], none⟩,
   ⟨none, "cat", "q2", "a2", none, none, some Proficiency.known⟩]

/-! Helper lemmas. -/

theorem displayCards_eq_filter (cards : List Card) (fm : FilterMode) (tag : String) :
    displayCards cards fm tag =
      cards.filter (fun c => cardMatchesFilters fm tag c) := by
  by_cases h : (tag == "") = true <;>
    cases fm <;>
      simp [displayCards, cardMatchesFilters, tagKeepSpec, profKeepSpec, h,
        List.filter_filter, Bool.and_comm]

theorem visibleOf_eq_filter (s : AppState) :
    visibleOf s =
      s.cards.filter (fun c => cardMatchesFilters s.filterMode s.selectedTag c) :=
  displayCards_eq_filter s.cards s.filterMode s.selectedTag

theorem handleNextWithLen_cards (len : Nat) (s : AppState) :
    (handleNextWithLen len s).cards = s.cards := by
  unfold handleNextWithLen
  by_cases h : (len == 0) = true <;> simp [h]

theorem handleNextWithLen_store (len : Nat) (s : AppState) :
    (handleNextWithLen len s).store = s.store := by
  unfold handleNextWithLen
  by_cases h : (len == 0) = true <;> simp [h]

theorem handleNextWithLen_isFlipped (len : Nat) (s : AppState) (h : 0 < len) :
    (handleNextWithLen len s).isFlipped = false := by
  unfold handleNextWithLen
  have hne : (len == 0) = false := by simp; omega
  simp [hne]

theorem handleNextWithLen_currentIndex (len : Nat) (s : AppState) (h : 0 < len) :
    (handleNextWithLen len s).currentIndex =
      ((if s.currentIndex ≥ len then 0 else s.currentIndex) + 1) % len := by
  unfold handleNextWithLen
  have hne : (len == 0) = false := by simp; omega
  simp [hne]

theorem effectiveIndex_lt (ci len : Nat) (h : 0 < len) :
    effectiveIndex ci len < len := by
  unfold effectiveIndex
  have h1 : min ci (max 0 (len - 1)) ≤ max 0 (len - 1) := min_le_right _ _
  omega

theorem currentCard_eq_none_of_empty (s : AppState)
    (h : (visibleOf s).length = 0) : currentCard s = none := by
  unfold currentCard
  exact List.getElem?_eq_none (by omega)

theorem handleNext_noop_of_empty (s : AppState)
    (h : (visibleOf s).length = 0) : handleNext s = s := by
  unfold handleNext handleNextWithLen
  simp [h]

theorem handlePrev_noop_of_empty (s : AppState)
    (h : (visibleOf s).length = 0) : handlePrev s = s := by
  unfold handlePrev handlePrevWithLen
  simp [h]

theorem handleMark_noop_of_empty (s : AppState) (p : Proficiency)
    (h : (visibleOf s).length = 0) : handleMark p s = s := by
  unfold handleMark
  rw [currentCard_eq_none_of_empty s h]

theorem handleDeleteCard_noop_of_empty (s : AppState)
    (h : (visibleOf s).length = 0) : handleDeleteCard s = s := by
  unfold handleDeleteCard
  rw [currentCard_eq_none_of_empty s h]

/-! Claim C1. -/

/-- C1: starting from cursor position 0, after any finite sequence of
`next()`, `prev()`, filter-change, mark, delete or shuffle operations, the
recomputed `effectiveIndex = min(rawIndex, max(0, visibleCount - 1))` lies in
`[0, visibleCount - 1]` whenever the visible set is non-empty (the lower
bound is inherent to `Nat`), and when the visible set is empty every one of
these operations is a non-throwing no-op-or-total transition: `next`, `prev`,
`mark` and `delete` are no-ops, and all operations are total functions of the
embedding by construction. -/
theorem cursor_safety_invariant (ops : List Op) (s0 : AppState)
    (_h0 : s0.currentIndex = 0) :
    (0 < (visibleOf (run ops s0)).length →
      effectiveIndex (run ops s0).currentIndex (visibleOf (run ops s0)).length <
        (visibleOf (run ops s0)).length) ∧
    ((visibleOf (run ops s0)).length = 0 →
      step Op.next (run ops s0) = run ops s0 ∧
      step Op.prev (run ops s0) = run ops s0 ∧
      (∀ p, step (Op.mark p) (run ops s0) = run ops s0) ∧
      step Op.deleteCurrent (run ops s0) = run ops s0) := by
  refine ⟨fun h => effectiveIndex_lt _ _ h, fun h => ⟨?_, ?_, ?_, ?_⟩⟩
  · exact handleNext_noop_of_empty _ h
  · exact handlePrev_noop_of_empty _ h
  · exact fun p => handleMark_noop_of_empty _ p h
  · exact handleDeleteCard_noop_of_empty _ h

/-- Witness for C1 at a concrete run exercising every operation once. -/
theorem cursor_safety_invariant_witness :
    (0 < (visibleOf (run c1Ops scenarioState)).length →
      effectiveIndex (run c1Ops scenarioState).currentIndex
          (visibleOf (run c1Ops scenarioState)).length <
        (visibleOf (run c1Ops scenarioState)).length) ∧
    ((visibleOf (run c1Ops scenarioState)).length = 0 →
      step Op.next (run c1Ops scenarioState) = run c1Ops scenarioState ∧
      step Op.prev (run c1Ops scenarioState) = run c1Ops scenarioState ∧
      (∀ p, step (Op.mark p) (run c1Ops scenarioState) = run c1Ops scenarioState) ∧
      step Op.deleteCurrent (run c1Ops scenarioState) = run c1Ops scenarioState) :=
  cursor_safety_invariant c1Ops scenarioState rfl

/-! Facts about the current card and the mark/delete branches. -/

theorem currentCard_mem_visible {s : AppState} {cc : Card}
    (h : currentCard s = some cc) : cc ∈ visibleOf s :=
  List.getElem?_mem h

theorem visible_pos_of_currentCard {s : AppState} {cc : Card}
    (h : currentCard s = some cc) : 0 < (visibleOf s).length := by
  rcases List.getElem?_eq_some_iff.mp h with ⟨hlt, _⟩
  omega

theorem currentCard_matches {s : AppState} {cc : Card}
    (h : currentCard s = some cc) :
    cardMatchesFilters s.filterMode s.selectedTag cc = true := by
  have hm := currentCard_mem_visible h
  rw [visibleOf_eq_filter] at hm
  exact (List.mem_filter.mp hm).2

theorem currentCard_mem_cards {s : AppState} {cc : Card}
    (h : currentCard s = some cc) : cc ∈ s.cards := by
  have hm := currentCard_mem_visible h
  rw [visibleOf_eq_filter] at hm
  exact (List.mem_filter.mp hm).1

/-- `handleMark`'s inline `willStayVisible` test agrees with membership of
the updated card in the visible set. -/
theorem willStay_eq_matches (fm : FilterMode) (tag : String) (p : Proficiency)
    (cc : Card) :
    ((fm == FilterMode.all || filterMatchesProf fm p) &&
        (tag == "" || (cc.tags.getD []).contains tag))
      = cardMatchesFilters fm tag (markedCard p cc) := by
  cases fm <;> cases p <;> rfl

/-- The card update applied by `handleMark`. -/
def markUpdate (p : Proficiency) (cc : Card) (cards : List Card) : List Card :=
  cards.map fun c => if c.id == cc.id then markedCard p c else c

theorem handleMark_stay (s : AppState) (cc : Card) (p : Proficiency)
    (hcc : currentCard s = some cc)
    (hstay : cardMatchesFilters s.filterMode s.selectedTag (markedCard p cc)
      = true) :
    handleMark p s =
      handleNextWithLen (visibleOf s).length
        { s with cards := markUpdate p cc s.cards,
                 store := saveCards (markUpdate p cc s.cards) } := by
  unfold handleMark
  rw [hcc]
  dsimp only
  rw [willStay_eq_matches s.filterMode s.selectedTag p cc, hstay]
  rfl

theorem handleMark_gone (s : AppState) (cc : Card) (p : Proficiency)
    (hcc : currentCard s = some cc)
    (hgone : cardMatchesFilters s.filterMode s.selectedTag (markedCard p cc)
      = false) :
    handleMark p s =
      { s with cards := markUpdate p cc s.cards,
               store := saveCards (markUpdate p cc s.cards),
               isFlipped := false,
               currentIndex :=
                 if 0 < (visibleOf s).length ∧
                     (visibleOf s).length - 1 ≤
                       effectiveIndex s.currentIndex (visibleOf s).length then
                   (visibleOf s).length - 2
                 else s.currentIndex } := by
  unfold handleMark
  rw [hcc]
  dsimp only
  rw [willStay_eq_matches s.filterMode s.selectedTag p cc, hgone]
  by_cases hcond : 0 < (visibleOf s).length ∧
      (visibleOf s).length - 1 ≤
        effectiveIndex s.currentIndex (visibleOf s).length
  · simp only [if_pos hcond]
    rfl
  · simp only [if_neg hcond]
    rfl

theorem handleDeleteCard_eq (s : AppState) (cc : Card)
    (hcc : currentCard s = some cc) :
    handleDeleteCard s =
      { s with cards := s.cards.filter fun c => c.id != cc.id,
               store := saveCards (s.cards.filter fun c => c.id != cc.id),
               isFlipped := false,
               currentIndex :=
                 if (visibleOf s).length - 1 ≤
                     effectiveIndex s.currentIndex (visibleOf s).length then
                   (visibleOf s).length - 2
                 else s.currentIndex } := by
  unfold handleDeleteCard
  rw [hcc]
  dsimp only
  by_cases hcond : (visibleOf s).length - 1 ≤
      effectiveIndex s.currentIndex (visibleOf s).length
  · simp only [if_pos hcond]
  · simp only [if_neg hcond]

/-! Claim C2. -/

/-- C2 counterexample: with collection [A, B, C] all `new`, filter `new`, no
tag filter and cursor at B (effective index 1), `mark(B, known)` makes B
leave the visible set (new visible length 2, new last valid index 1).  The
claimed policy — decrement when the effective position is at or beyond the
NEW last valid index — predicts position `shrinkIndexSpec 1 2 = 0`, but the
code leaves the position at 1: it only decrements when the position was at
the OLD last valid index. -/
theorem shrink_policy_counterexample :
    currentCard midMarkState = some cardB ∧
    cardMatchesFilters midMarkState.filterMode midMarkState.selectedTag
        (markedCard Proficiency.known cardB) = false ∧
    (visibleOf (handleMark Proficiency.known midMarkState)).length = 2 ∧
    shrinkIndexSpec
        (effectiveIndex midMarkState.currentIndex (visibleOf midMarkState).length)
        (visibleOf (handleMark Proficiency.known midMarkState)).length = 0 ∧
    (handleMark Proficiency.known midMarkState).currentIndex = 1 :=
  ⟨rfl, rfl, rfl, rfl, rfl⟩

/-- C2 amended: when the currently shown card leaves the visible set —
because `mark` makes it stop matching the active filters, or because it is
deleted — then if its effective position is at or beyond the OLD last valid
index (it was the last visible card) the position becomes `oldLength - 2`
(one less than the old last index, floored at 0 by Nat subtraction), and
otherwise the position is left unchanged; in both cases the flip state is
reset to unflipped.  The mark part holds for every proficiency that makes
the shown card stop matching the active filters; the delete part holds
unconditionally for the currently shown card, under any filter. -/
theorem shrink_policy_amended (s : AppState) (cc : Card)
    (hcc : currentCard s = some cc) :
    (∀ p : Proficiency,
      cardMatchesFilters s.filterMode s.selectedTag (markedCard p cc) = false →
      ((handleMark p s).currentIndex =
        if (visibleOf s).length - 1 ≤
            effectiveIndex s.currentIndex (visibleOf s).length then
          (visibleOf s).length - 2
        else s.currentIndex) ∧
      (handleMark p s).isFlipped = false) ∧
    ((handleDeleteCard s).currentIndex =
      if (visibleOf s).length - 1 ≤
          effectiveIndex s.currentIndex (visibleOf s).length then
        (visibleOf s).length - 2
      else s.currentIndex) ∧
    (handleDeleteCard s).isFlipped = false := by
  have hpos := visible_pos_of_currentCard hcc
  refine ⟨?_, ?_, ?_⟩
  · intro p hgone
    rw [handleMark_gone s cc p hcc hgone]
    refine ⟨?_, rfl⟩
    dsimp only
    by_cases h : (visibleOf s).length - 1 ≤
        effectiveIndex s.currentIndex (visibleOf s).length
    · rw [if_pos ⟨hpos, h⟩, if_pos h]
    · rw [if_neg (fun hc => h hc.2), if_neg h]
  · rw [handleDeleteCard_eq s cc hcc]
  · rw [handleDeleteCard_eq s cc hcc]

/-- Witness for C2's amended theorem at the counterexample state (filter
`new`, cursor at B): the delete conclusions are unconditional, and the mark
conclusions are discharged at proficiency `known`, which makes B leave. -/
theorem shrink_policy_amended_witness :
    (∀ p : Proficiency,
      cardMatchesFilters midMarkState.filterMode midMarkState.selectedTag
          (markedCard p cardB) = false →
      ((handleMark p midMarkState).currentIndex =
        if (visibleOf midMarkState).length - 1 ≤
            effectiveIndex midMarkState.currentIndex (visibleOf midMarkState).length then
          (visibleOf midMarkState).length - 2
        else midMarkState.currentIndex) ∧
      (handleMark p midMarkState).isFlipped = false) ∧
    ((handleDeleteCard midMarkState).currentIndex =
      if (visibleOf midMarkState).length - 1 ≤
          effectiveIndex midMarkState.currentIndex (visibleOf midMarkState).length then
        (visibleOf midMarkState).length - 2
      else midMarkState.currentIndex) ∧
    (handleDeleteCard midMarkState).isFlipped = false :=
  shrink_policy_amended midMarkState cardB rfl

/-! Claim C3. -/

theorem visible_map_update (cards : List Card) (fm : FilterMode) (tag : String)
    (cc : Card) (p : Proficiency)
    (hn : (cards.map Card.id).Nodup) (hcc : cc ∈ cards)
    (hkeep : cardMatchesFilters fm tag (markedCard p cc)
      = cardMatchesFilters fm tag cc) :
    displayCards (markUpdate p cc cards) fm tag
      = (displayCards cards fm tag).map
          fun c => if c.id == cc.id then markedCard p c else c := by
  rw [displayCards_eq_filter, displayCards_eq_filter]
  unfold markUpdate
  rw [List.filter_map]
  congr 1
  apply List.filter_congr
  intro c hc
  by_cases hid : (c.id == cc.id) = true
  · have hceq : c = cc :=
      List.inj_on_of_nodup_map hn hc hcc (by simpa using hid)
    subst hceq
    simp only [Function.comp_apply, hid, if_pos]
    exact hkeep
  · simp only [Function.comp_apply]
    rw [if_neg hid]

theorem countP_id_eq_one {cards : List Card} {cc : Card}
    (hn : (cards.map Card.id).Nodup) (hcc : cc ∈ cards) :
    cards.countP (fun c => c.id == cc.id) = 1 := by
  have h1 : (cards.map Card.id).count cc.id = 1 :=
    List.count_eq_one_of_mem hn (List.mem_map_of_mem Card.id hcc)
  rw [List.count_eq_countP, List.countP_map] at h1
  exact h1

/-- C3: for every collection with unique ids, active filter state and
current card `cc`, `mark(cc.id, p)` rewrites the collection pointwise —
the (unique) card carrying `cc.id` gets proficiency `p`, every other card is
unchanged — and when the marked card still matches both active filters the
whole transition equals a normal `next()` on the updated state (advance by
one, unflip).  In particular, on collection [A(new), B(new), C(new)], filter
`all`, cursor at A, `mark(A.id, known)` makes A `known`, A remains visible,
and the cursor lands on B, unflipped. -/
theorem mark_stays_visible (s : AppState) (cc : Card) (p : Proficiency)
    (hn : (s.cards.map Card.id).Nodup)
    (hcc : currentCard s = some cc)
    (hstay : cardMatchesFilters s.filterMode s.selectedTag (markedCard p cc)
      = true) :
    (handleMark p s).cards.length = s.cards.length ∧
    (∀ i : Nat, (handleMark p s).cards[i]? =
      (s.cards[i]?).map fun c => if c.id == cc.id then markedCard p c else c) ∧
    s.cards.countP (fun c => c.id == cc.id) = 1 ∧
    handleMark p s =
      handleNext { s with cards := markUpdate p cc s.cards,
                          store := saveCards (markUpdate p cc s.cards) } ∧
    ((handleMark Proficiency.known scenarioState).cards =
        [markedCard Proficiency.known cardA, cardB, cardC] ∧
      currentCard (handleMark Proficiency.known scenarioState) = some cardB ∧
      (handleMark Proficiency.known scenarioState).currentIndex = 1 ∧
      (handleMark Proficiency.known scenarioState).isFlipped = false) := by
  have hmem : cc ∈ s.cards := currentCard_mem_cards hcc
  have hkeep : cardMatchesFilters s.filterMode s.selectedTag (markedCard p cc)
      = cardMatchesFilters s.filterMode s.selectedTag cc := by
    rw [hstay, currentCard_matches hcc]
  have hstep := handleMark_stay s cc p hcc hstay
  have hcards : (handleMark p s).cards = markUpdate p cc s.cards := by
    rw [hstep, handleNextWithLen_cards]
  have hlen : (visibleOf
      { s with cards := markUpdate p cc s.cards,
               store := saveCards (markUpdate p cc s.cards) }).length
      = (visibleOf s).length := by
    show (displayCards (markUpdate p cc s.cards) s.filterMode s.selectedTag).length = _
    rw [visible_map_update s.cards s.filterMode s.selectedTag cc p hn hmem hkeep]
    exact List.length_map _ _
  refine ⟨?_, ?_, countP_id_eq_one hn hmem, ?_, rfl, rfl, rfl, rfl⟩
  · rw [hcards]
    exact List.length_map _ _
  · intro i
    rw [hcards]
    unfold markUpdate
    exact List.getElem?_map _ _ _
  · rw [hstep]
    unfold handleNext
    rw [hlen]

/-- Witness for C3 at the spec's scenario state. -/
theorem mark_stays_visible_witness :
    (handleMark Proficiency.known scenarioState).cards.length
        = scenarioState.cards.length ∧
    (∀ i : Nat, (handleMark Proficiency.known scenarioState).cards[i]? =
      (scenarioState.cards[i]?).map
        fun c => if c.id == cardA.id then markedCard Proficiency.known c else c) ∧
    scenarioState.cards.countP (fun c => c.id == cardA.id) = 1 ∧
    handleMark Proficiency.known scenarioState =
      handleNext { scenarioState with
        cards := markUpdate Proficiency.known cardA scenarioState.cards,
        store := saveCards (markUpdate Proficiency.known cardA scenarioState.cards) } ∧
    ((handleMark Proficiency.known scenarioState).cards =
        [markedCard Proficiency.known cardA, cardB, cardC] ∧
      currentCard (handleMark Proficiency.known scenarioState) = some cardB ∧
      (handleMark Proficiency.known scenarioState).currentIndex = 1 ∧
      (handleMark Proficiency.known scenarioState).isFlipped = false) :=
  mark_stays_visible scenarioState cardA Proficiency.known (by decide) rfl rfl

/-! Claim C4. -/

/-- C4: at `staleState` — two visible cards, stale raw index 5 — the shown
card is the last one (effective index 1), so stepping one past it would give
position (1 + 1) % 2 = 0; but `handleNext` resets its base to 0 whenever the
raw index is at or past the visible length (despite the code's own comment
"Use effectiveIndex as base") and yields position 1.  `handlePrev` from the
same state yields (0 + 2 - 1) % 2 = 1 as well. -/
theorem next_stale_base_divergence :
    effectiveIndex staleState.currentIndex (visibleOf staleState).length = 1 ∧
    (effectiveIndex staleState.currentIndex (visibleOf staleState).length + 1)
        % (visibleOf staleState).length = 0 ∧
    (handleNext staleState).currentIndex = 1 ∧
    (handlePrev staleState).currentIndex = 1 :=
  ⟨rfl, rfl, rfl, rfl⟩

/-! Claim C5. -/

/-- C5: the visible view is exactly the order-preserving conjunctive
two-stage filter the spec describes — the proficiency stage keeps
absent-or-new under `new`, exact matches under `known`/`unknown`, everything
under `all`; the tag stage, when a tag is set, keeps only cards whose tags
contain it (tagless cards excluded, via `tags.getD []`).  The result is a
subsequence of the input (order preserved, no mutation of a pure function's
argument), re-application is idempotent, and `visible(cards, new, none)` is
the subsequence with absent-or-`new` proficiency. -/
theorem view_filter_correct (cards : List Card) (fm : FilterMode) (tag : String) :
    displayCards cards fm tag =
      cards.filter (fun c => profKeepSpec fm c && tagKeepSpec tag c) ∧
    List.Sublist (displayCards cards fm tag) cards ∧
    displayCards (displayCards cards fm tag) fm tag = displayCards cards fm tag ∧
    displayCards cards FilterMode.new "" =
      cards.filter
        (fun c => c.proficiency == none || c.proficiency == some Proficiency.new) := by
  refine ⟨displayCards_eq_filter cards fm tag, ?_, ?_, ?_⟩
  · rw [displayCards_eq_filter]
    exact List.filter_sublist cards
  · rw [displayCards_eq_filter cards fm tag,
      displayCards_eq_filter (cards.filter fun c => cardMatchesFilters fm tag c) fm tag,
      List.filter_filter]
    exact List.filter_congr fun c _ => by rw [Bool.and_self]
  · rw [displayCards_eq_filter]
    exact List.filter_congr fun c _ => by
      simp [cardMatchesFilters, profKeepSpec, tagKeepSpec]

/-! Claim C6: lemmas about the import normalization. -/

theorem mem_explicitIds_cons (item : RawCard) (rest : List RawCard) (x : String)
    (h : x ∈ explicitIds rest) : x ∈ explicitIds (item :: rest) := by
  cases hid : item.id with
  | none => simp [explicitIds, hid, h]
  | some sid =>
      by_cases hsid : (sid == "") = true <;> simp [explicitIds, hid, hsid, h]

theorem explicitIds_cons_some (item : RawCard) (rest : List RawCard)
    (sid : String) (hid : item.id = some sid) (hsid : (sid == "") = false) :
    explicitIds (item :: rest) = sid :: explicitIds rest := by
  simp [explicitIds, hid, hsid]

theorem mem_ids_normalizeFrom (gen : Nat → String) :
    ∀ (l : List RawCard) (i : Nat) (x : String),
      x ∈ (normalizeFrom gen i l).map Card.id →
      x ∈ explicitIds l ∨ ∃ j, i ≤ j ∧ x = gen j := by
  intro l
  induction l with
  | nil => intro i x h; simp [normalizeFrom] at h
  | cons item rest ih =>
      intro i x h
      simp only [normalizeFrom, List.map_cons, List.mem_cons] at h
      rcases h with h | h
      · rw [show (normalizeItem gen i item).id = chosenId gen i item from rfl] at h
        cases hid : item.id with
        | none =>
            simp only [chosenId, hid] at h
            exact Or.inr ⟨i, le_refl i, h⟩
        | some sid =>
            simp only [chosenId, hid] at h
            by_cases hsid : (sid == "") = true
            · rw [if_pos hsid] at h
              exact Or.inr ⟨i, le_refl i, h⟩
            · rw [if_neg hsid] at h
              left
              rw [explicitIds_cons_some item rest sid hid
                (Bool.not_eq_true _ ▸ eq_false_of_ne_true hsid)]
              exact h ▸ List.mem_cons_self sid (explicitIds rest)
      · rcases ih (i + 1) x h with hx | ⟨j, hj, hxe⟩
        · exact Or.inl (mem_explicitIds_cons item rest x hx)
        · exact Or.inr ⟨j, by omega, hxe⟩

theorem nodup_ids_normalizeFrom (gen : Nat → String)
    (hinj : ∀ i j, gen i = gen j → i = j) :
    ∀ (l : List RawCard) (i : Nat),
      (∀ j, gen j ∉ explicitIds l) → (explicitIds l).Nodup →
      ((normalizeFrom gen i l).map Card.id).Nodup := by
  intro l
  induction l with
  | nil => intro i _ _; simp [normalizeFrom]
  | cons item rest ih =>
      intro i hfresh hexp
      have hfresh2 : ∀ j, gen j ∉ explicitIds rest := fun j hj =>
        hfresh j (mem_explicitIds_cons item rest _ hj)
      have hexp2 : (explicitIds rest).Nodup := by
        cases hid : item.id with
        | none => rw [show explicitIds (item :: rest) = explicitIds rest by
            simp [explicitIds, hid]] at hexp; exact hexp
        | some sid =>
            by_cases hsid : (sid == "") = true
            · rw [show explicitIds (item :: rest) = explicitIds rest by
                simp [explicitIds, hid, hsid]] at hexp
              exact hexp
            · rw [explicitIds_cons_some item rest sid hid
                (eq_false_of_ne_true hsid)] at hexp
              exact (List.nodup_cons.mp hexp).2
      simp only [normalizeFrom, List.map_cons, List.nodup_cons]
      refine ⟨?_, ih (i + 1) hfresh2 hexp2⟩
      intro hmem
      rw [show (normalizeItem gen i item).id = chosenId gen i item from rfl]
        at hmem
      rcases mem_ids_normalizeFrom gen rest (i + 1) _ hmem with hx | ⟨j, hj, hxe⟩
      · cases hid : item.id with
        | none =>
            simp only [chosenId, hid] at hx
            exact hfresh2 i hx
        | some sid =>
            simp only [chosenId, hid] at hx
            by_cases hsid : (sid == "") = true
            · rw [if_pos hsid] at hx
              exact hfresh2 i hx
            · rw [if_neg hsid] at hx
              rw [explicitIds_cons_some item rest sid hid
                (eq_false_of_ne_true hsid)] at hexp
              exact (List.nodup_cons.mp hexp).1 hx
      · cases hid : item.id with
        | none =>
            simp only [chosenId, hid] at hxe
            have := hinj i j hxe
            omega
        | some sid =>
            simp only [chosenId, hid] at hxe
            by_cases hsid : (sid == "") = true
            · rw [if_pos hsid] at hxe
              have := hinj i j hxe
              omega
            · rw [if_neg hsid] at hxe
              apply hfresh j
              rw [explicitIds_cons_some item rest sid hid
                (eq_false_of_ne_true hsid)]
              exact hxe ▸ List.mem_cons_self sid (explicitIds rest)

theorem mem_normalizeFrom (gen : Nat → String) :
    ∀ (l : List RawCard) (i : Nat) (c : Card),
      c ∈ normalizeFrom gen i l →
      ∃ j item, item ∈ l ∧ i ≤ j ∧ c = normalizeItem gen j item := by
  intro l
  induction l with
  | nil => intro i c h; simp [normalizeFrom] at h
  | cons item rest ih =>
      intro i c h
      simp only [normalizeFrom, List.mem_cons] at h
      rcases h with h | h
      · exact ⟨i, item, List.mem_cons_self item rest, le_refl i, h⟩
      · rcases ih (i + 1) c h with ⟨j, it, hmem, hj, hc⟩
        exact ⟨j, it, List.mem_cons_of_mem item hmem, by omega, hc⟩

theorem chosenId_ne_empty (gen : Nat → String) (i : Nat) (item : RawCard)
    (hg : ∀ j, gen j ≠ "") : chosenId gen i item ≠ "" := by
  cases hid : item.id with
  | none => simp only [chosenId, hid]; exact hg i
  | some sid =>
      simp only [chosenId, hid]
      by_cases hsid : (sid == "") = true
      · rw [if_pos hsid]
        exact hg i
      · rw [if_neg hsid]
        simp at hsid
        exact hsid

theorem normalizeFrom_map_tags (gen : Nat → String) :
    ∀ (l : List RawCard) (i : Nat),
      (normalizeFrom gen i l).map Card.tags = l.map RawCard.tags := by
  intro l
  induction l with
  | nil => intro i; rfl
  | cons item rest ih =>
      intro i
      simp only [normalizeFrom, List.map_cons, ih (i + 1)]
      rfl

theorem normalizeFrom_map_proficiency (gen : Nat → String) :
    ∀ (l : List RawCard) (i : Nat),
      (normalizeFrom gen i l).map Card.proficiency =
        l.map fun it => some (it.proficiency.getD Proficiency.new) := by
  intro l
  induction l with
  | nil => intro i; rfl
  | cons item rest ih =>
      intro i
      simp only [normalizeFrom, List.map_cons, ih (i + 1)]
      rfl

/-- C6 counterexample: the import [{id "x", tags []}, {id "x"}] is valid
(both items have non-empty question and answer), yet the normalized
collection keeps the EMPTY tags sequence of the first card (the code's
`Array.isArray(item.tags) ? item.tags : undefined` keeps empty arrays) and
carries the duplicate explicit id "x" twice — so ids are not unique and
`tags` can be an empty sequence. -/
theorem import_normalization_counterexample :
    ([rawDup1, rawDup2].all rawHasQA) = true ∧
    parseAndValidate genDefault (ImportData.arr [rawDup1, rawDup2]) =
      Except.ok (normalizeFrom genDefault 0 [rawDup1, rawDup2]) ∧
    (normalizeFrom genDefault 0 [rawDup1, rawDup2]).map Card.tags
      = [some [], none] ∧
    (normalizeFrom genDefault 0 [rawDup1, rawDup2]).map Card.id = ["x", "x"] ∧
    ¬ ((normalizeFrom genDefault 0 [rawDup1, rawDup2]).map Card.id).Nodup :=
  ⟨rfl, rfl, rfl, rfl, by decide⟩

/-- C6 amended: for every valid import, `replaceAll`'s normalization
succeeds and yields a collection in which every card has a non-empty id (a
fresh one is generated when the input id is missing or empty) and a defined
proficiency (missing defaults to `new`); ids are unique PROVIDED the
explicitly supplied non-empty ids are distinct and the generated ids are
fresh (pairwise distinct, non-empty, and not colliding with any explicit
id); and `tags` is kept exactly as supplied — absent when the input has no
tags sequence, and otherwise the same sequence, including the empty one. -/
theorem import_normalization_amended (gen : Nat → String) (items : List RawCard)
    (hvalid : items.all rawHasQA = true)
    (hg : ∀ j, gen j ≠ "")
    (hinj : ∀ i j, gen i = gen j → i = j)
    (hfresh : ∀ j, gen j ∉ explicitIds items)
    (hexp : (explicitIds items).Nodup) :
    parseAndValidate gen (ImportData.arr items) =
      Except.ok (normalizeFrom gen 0 items) ∧
    (∀ c ∈ normalizeFrom gen 0 items, c.id ≠ "" ∧ c.proficiency.isSome = true) ∧
    ((normalizeFrom gen 0 items).map Card.id).Nodup ∧
    (normalizeFrom gen 0 items).map Card.tags = items.map RawCard.tags ∧
    (normalizeFrom gen 0 items).map Card.proficiency =
      items.map (fun it => some (it.proficiency.getD Proficiency.new)) := by
  refine ⟨by simp [parseAndValidate, hvalid], ?_,
    nodup_ids_normalizeFrom gen hinj items 0 hfresh hexp,
    normalizeFrom_map_tags gen items 0,
    normalizeFrom_map_proficiency gen items 0⟩
  intro c hc
  rcases mem_normalizeFrom gen items 0 c hc with ⟨j, item, _, _, hceq⟩
  subst hceq
  exact ⟨chosenId_ne_empty gen j item hg, rfl⟩

/-- Witness for C6's amended theorem: two valid items without explicit ids,
normalized with an injective generator of non-empty ids. -/
theorem import_normalization_amended_witness :
    parseAndValidate witnessGen (ImportData.arr witnessItems) =
      Except.ok (normalizeFrom witnessGen 0 witnessItems) ∧
    (∀ c ∈ normalizeFrom witnessGen 0 witnessItems,
      c.id ≠ "" ∧ c.proficiency.isSome = true) ∧
    ((normalizeFrom witnessGen 0 witnessItems).map Card.id).Nodup ∧
    (normalizeFrom witnessGen 0 witnessItems).map Card.tags =
      witnessItems.map RawCard.tags ∧
    (normalizeFrom witnessGen 0 witnessItems).map Card.proficiency =
      witnessItems.map (fun it => some (it.proficiency.getD Proficiency.new)) :=
  import_normalization_amended witnessGen witnessItems rfl
    (fun j h => by
      have hd := congrArg String.data h
      simp [witnessGen, List.replicate_succ] at hd)
    (fun i j h => by
      have hd := congrArg (fun t => t.data.length) h
      simp [witnessGen] at hd
      omega)
    (fun j h => by
      rw [show explicitIds witnessItems = [] from rfl] at h
      exact List.not_mem_nil _ h)
    (by rw [show explicitIds witnessItems = [] from rfl]; exact List.nodup_nil)

/-! Claim C7. -/

theorem rawHasQA_false_iff (it : RawCard) :
    rawHasQA it = false ↔ (it.question.isEmpty || it.answer.isEmpty) = true := by
  unfold rawHasQA
  cases hq : it.question.isEmpty <;> cases ha : it.answer.isEmpty <;> simp

/-- C7: `replaceAll`/`append` validation raises an error if and only if the
input is not a sequence or some input card lacks (has an empty) question or
answer; on such a failure the error is surfaced synchronously as one of the
two fixed messages and the whole state — in-memory collection and persisted
store alike — is left completely unchanged: no card of the failing import is
applied. -/
theorem validation_atomicity (gen : Nat → String) (d : ImportData) (s : AppState) :
    ((∃ m, parseAndValidate gen d = Except.error m) ↔
      (d = ImportData.notArray ∨
        ∃ l it, d = ImportData.arr l ∧ it ∈ l ∧
          (it.question.isEmpty || it.answer.isEmpty) = true)) ∧
    (∀ m, parseAndValidate gen d = Except.error m →
      (editorHandleSave gen d s).1 = s ∧
      (editorHandleSave gen d s).2 = some m ∧
      (editorHandleAppend gen d s).1 = s ∧
      (editorHandleAppend gen d s).2 = some m ∧
      (m = "Data must be an array" ∨
        m = "Each card must have a question and answer.")) := by
  cases d with
  | notArray =>
      constructor
      · constructor
        · intro _
          exact Or.inl rfl
        · intro _
          exact ⟨"Data must be an array", rfl⟩
      · intro m hm
        have hmeq : m = "Data must be an array" := by
          have := (Except.error.injEq _ _).mp hm.symm
          exact this
        subst hmeq
        exact ⟨rfl, rfl, rfl, rfl, Or.inl rfl⟩
  | arr items =>
      by_cases hall : items.all rawHasQA = true
      · constructor
        · constructor
          · intro ⟨m, hm⟩
            rw [show parseAndValidate gen (ImportData.arr items)
                = Except.ok (normalizeFrom gen 0 items) by
              simp [parseAndValidate, hall]] at hm
            exact absurd hm (by simp)
          · intro h
            rcases h with h | ⟨l, it, hl, hmem, hbad⟩
            · exact absurd h (by simp)
            · have hleq : l = items := by
                injection hl with h2
                exact h2.symm
              subst hleq
              have := List.all_eq_true.mp hall it hmem
              rw [← rawHasQA_false_iff] at hbad
              rw [this] at hbad
              exact absurd hbad (by simp)
        · intro m hm
          rw [show parseAndValidate gen (ImportData.arr items)
              = Except.ok (normalizeFrom gen 0 items) by
            simp [parseAndValidate, hall]] at hm
          exact absurd hm (by simp)
      · have herr : parseAndValidate gen (ImportData.arr items)
            = Except.error "Each card must have a question and answer." := by
          simp [parseAndValidate, hall]
        constructor
        · constructor
          · intro _
            right
            rcases List.all_eq_false.mp (Bool.eq_false_iff.mpr hall) with
              ⟨it, hmem, hbad⟩
            exact ⟨items, it, rfl,
              hmem, (rawHasQA_false_iff it).mp (Bool.eq_false_iff.mpr hbad)⟩
          · intro _
            exact ⟨"Each card must have a question and answer.", herr⟩
        · intro m hm
          rw [herr] at hm
          have hmeq : m = "Each card must have a question and answer." := by
            have := (Except.error.injEq _ _).mp hm.symm
            exact this
          subst hmeq
          refine ⟨?_, ?_, ?_, ?_, Or.inr rfl⟩ <;>
            simp [editorHandleSave, editorHandleAppend, herr]

/-- Witness for C7 at the not-an-array input. -/
theorem validation_atomicity_witness :
    (editorHandleSave genDefault ImportData.notArray scenarioState).1
        = scenarioState ∧
    (editorHandleSave genDefault ImportData.notArray scenarioState).2
        = some "Data must be an array" ∧
    (editorHandleAppend genDefault ImportData.notArray scenarioState).1
        = scenarioState ∧
    (editorHandleAppend genDefault ImportData.notArray scenarioState).2
        = some "Data must be an array" ∧
    ("Data must be an array" = "Data must be an array" ∨
      "Data must be an array" = "Each card must have a question and answer.") :=
  (validation_atomicity genDefault ImportData.notArray scenarioState).2
    "Data must be an array" rfl

/-! Claim C9. -/

/-- C9: `reset()` discards the persisted store (the storage key is removed),
installs the built-in non-empty seed data as the in-memory collection, and
that seed data is what `load()` now yields — the new persisted baseline;
the cursor is reset to 0, the card is unflipped, and both filters are
cleared. -/
theorem reset_postcondition (s : AppState) :
    (handleReset s).store = none ∧
    (handleReset s).cards = INITIAL_DATA ∧
    INITIAL_DATA ≠ [] ∧
    loadCards (handleReset s).store = INITIAL_DATA ∧
    (handleReset s).currentIndex = 0 ∧
    (handleReset s).isFlipped = false ∧
    (handleReset s).filterMode = FilterMode.all ∧
    (handleReset s).selectedTag = "" :=
  ⟨rfl, rfl, by simp [INITIAL_DATA], rfl, rfl, rfl, rfl, rfl⟩

/-! Claim C10. -/

/-- C10: `handleShuffle` reorders the in-memory collection and resets the
cursor (position 0, unflipped) but never calls `saveCards`: the persisted
store immediately after a shuffle equals the store before it, for every
state and every realized reordering.  The reordered collection reaches the
store only through a later saving operation, e.g. an append or replace-all
after the shuffle persists the reordered cards. -/
theorem shuffle_not_persisted (s : AppState) (f : List Card → List Card)
    (cs : List Card) :
    (handleShuffle f s).store = s.store ∧
    (handleShuffle f s).cards = f s.cards ∧
    (handleShuffle f s).currentIndex = 0 ∧
    (handleShuffle f s).isFlipped = false ∧
    (handleAppendData cs (handleShuffle f s)).store
      = saveCards (f s.cards ++ cs) ∧
    (handleSaveData cs (handleShuffle f s)).store = saveCards cs :=
  ⟨rfl, rfl, rfl, rfl, rfl, rfl⟩

end Flashcard
